import Mathlib

/-!
Verification of the RAK product recommender core.

This file shallowly embeds the recommender pipeline of the repository
(`recommender_system/hard_matcher.py`, `recommender_system/soft_matcher.py`,
`recommender_system/recommender.py`, `recommender_system/config.py`, and the
normalisation steps of `recommender_system/data_loader.py`) and proves the
frozen specification claims about it.

Modelling conventions:
 * Python strings are Lean `String`s; pandas rows become structures.
 * Python floats are modelled by `Rat`; the external sentence-transformer
   model is an oracle (`SoftProvider`) supplying encode/cosine functions.
 * `re.search(r'\b kw \b', text)` is modelled by an explicit word-boundary
   scanner over `List Char`.
 * Python `sorted(..., reverse=True)` (a stable descending sort) is modelled
   by a stable descending insertion sort.
-/

namespace Rak

/-- Single-quote character, used to reproduce the Python explanation strings
that quote values. -/
def sq : String := String.singleton (Char.ofNat 39)

/-- Python `str.lower()` (character-wise, which is exact on the ASCII data
this code lower-cases). -/
def pyLower (s : String) : String := String.mk (s.data.map Char.toLower)

/-- Python `str.upper()`. -/
def pyUpper (s : String) : String := String.mk (s.data.map Char.toUpper)

/-- Python `", ".join(xs)` with each element rendered as Python `repr` renders
a list of strings, used by the frequency-band failure message. -/
def pyListRepr (xs : List String) : String :=
  "[" ++ String.intercalate ", " (xs.map (fun s => sq ++ s ++ sq)) ++ "]"

/-- Python `str.capitalize()`: first character upper-cased, rest lower-cased
(ASCII, which covers the environment tokens this code applies it to). -/
def pyCapitalize (s : String) : String :=
  match s.data with
  | [] => ""
  | c :: rest => String.mk (c.toUpper :: rest.map Char.toLower)

/-- Whitespace class of Python `\s` (restricted to the blank characters Lean
knows as whitespace). -/
def isSpc (c : Char) : Bool := c.isWhitespace

/-- Python `re.sub(r'\s+', ' ', s)`: every maximal whitespace run becomes one
space. -/
def squeeze : List Char → List Char
  | [] => []
  | [c] => [if isSpc c then ' ' else c]
  | a :: b :: t =>
    if isSpc a && isSpc b then squeeze (b :: t)
    else (if isSpc a then ' ' else a) :: squeeze (b :: t)

/-- Remove trailing whitespace (the right half of Python `str.strip()`). -/
def rstrip : List Char → List Char
  | [] => []
  | c :: t =>
    match rstrip t with
    | [] => if isSpc c then [] else [c]
    | r => c :: r

/-- Python `str.strip()` on a character list. -/
def stripWs (l : List Char) : List Char := rstrip (l.dropWhile isSpc)

/-- Python `str.strip()` on a string. -/
def pyStrip (s : String) : String := String.mk (stripWs s.data)

/-- Python `re.sub(r'\s+', ' ', s).strip()`, the normalisation used by both
corpus builders. -/
def pyNormalize (s : String) : String := String.mk (stripWs (squeeze s.data))

/-- Python `s.split(',')`, collecting the comma-separated pieces. -/
def splitCommaAux (acc : List Char) : List Char → List (List Char)
  | [] => [acc.reverse]
  | c :: rest =>
    if c == ',' then acc.reverse :: splitCommaAux [] rest
    else splitCommaAux (c :: acc) rest

/-- Python `s.split(',')` on a string. -/
def splitComma (s : String) : List String :=
  (splitCommaAux [] s.data).map String.mk

/-- Containment of `needle` in a list of characters, i.e. Python
`needle in haystack` for strings (contiguous substring). -/
def substrAux (needle : List Char) : List Char → Bool
  | [] => needle.isEmpty
  | c :: rest => needle.isPrefixOf (c :: rest) || substrAux needle rest

/-- Python `needle in hay` on strings. -/
def substrIn (needle hay : String) : Bool :=
  substrAux needle.data hay.data

/-- Word character for the regex `\b` boundary: ASCII letters, digits and
underscore (the keyword tables only use such characters). -/
def isWordChar (c : Char) : Bool := c.isAlphanum || c == '_'

/-- Word-character test lifted to an optional character; the absent character
at either end of the text counts as a non-word character. -/
def optIsWord : Option Char → Bool
  | none => false
  | some c => isWordChar c

/-- A regex `\b` word boundary holds between two (optional) characters when
exactly one side is a word character. -/
def bdryOk (a b : Option Char) : Bool := optIsWord a != optIsWord b

/-- The regex `\b kw \b` matches at the current position of `text`, whose
predecessor character is `prev` (for the non-empty keywords of the
configuration tables). -/
def wbMatchHere (kw : List Char) (prev : Option Char) (text : List Char) : Bool :=
  kw.isPrefixOf text && bdryOk prev kw.head? &&
    bdryOk kw.getLast? (text.drop kw.length).head?

/-- Scan of `text` for a word-boundary match of `kw`, carrying the previous
character. -/
def wbSearchAux (kw : List Char) (prev : Option Char) : List Char → Bool
  | [] => wbMatchHere kw prev []
  | c :: rest => wbMatchHere kw prev (c :: rest) || wbSearchAux kw (some c) rest

/-- Python `re.search(r'\b' + re.escape(kw) + r'\b', text) is not None`. -/
def wbSearch (kw : String) (text : String) : Bool :=
  wbSearchAux kw.data none text.data

/-- Deduplication keeping the first occurrence, with an accumulator of the
elements already seen; models Python `list(set(xs))`, whose iteration order
the code never exposes (matched options are re-sorted, and scores are
order-independent sums). -/
def dedupAux (seen : List String) : List String → List String
  | [] => []
  | x :: xs => if seen.contains x then dedupAux seen xs else x :: dedupAux (x :: seen) xs

/-- Deduplication keeping first occurrences; models Python `list(set(xs))`. -/
def dedupFirst (xs : List String) : List String := dedupAux [] xs

/-- Ascending insertion of a string into a sorted list (lexicographic by code
point, as Python `sorted` on strings). -/
def insertStrAsc (x : String) : List String → List String
  | [] => [x]
  | y :: ys => if x < y then x :: y :: ys else y :: insertStrAsc x ys

/-- Python `sorted(xs)` for lists of strings. -/
def sortStringsAsc : List String → List String
  | [] => []
  | x :: xs => insertStrAsc x (sortStringsAsc xs)

/-! ## Configuration (`recommender_system/config.py`) -/

/-- Weight `WEIGHTS["frequency_band"]`. -/
def WEIGHTS_frequency_band : Nat := 5

/-- Weight `WEIGHTS["environment"]`. -/
def WEIGHTS_environment : Nat := 3

/-- Weight `WEIGHTS["connectivity_option"]` (per matched option). -/
def WEIGHTS_connectivity_option : Nat := 2

/-- Weight `WEIGHTS["power_keyword"]`. -/
def WEIGHTS_power_keyword : Nat := 1

/-- Weight `WEIGHTS["text_similarity_scale"]`. -/
def WEIGHTS_text_similarity_scale : Rat := 10

/-- The `POWER_KEYWORD_MAPPING` dictionary; `.get(label, [])` semantics, so
unknown labels (and "Other / Not Specified") map to no keywords. -/
def POWER_KEYWORD_MAPPING : String → List String
  | "DC Power" => ["dc power", "dc supply"]
  | "AC Power" => ["ac power", "ac supply"]
  | "Battery Powered" => ["battery", "batteries", "battery-powered"]
  | "USB Powered" => ["usb power", "usb powered"]
  | "Solar Power" => ["solar", "solar power", "solar-powered"]
  | "PoE (Power over Ethernet)" => ["poe", "power over ethernet"]
  | _ => []

/-- The `CONNECTIVITY_JSON_TO_PRODUCT_KEYWORDS` dictionary. -/
def CONNECTIVITY_JSON_TO_PRODUCT_KEYWORDS : String → Option (List String)
  | "lorawan" => some ["lorawan", "lora wan"]
  | "lora_p2p" => some ["lora p2p", "lora point-to-point"]
  | "lora" => some ["lora"]
  | "meshtastic" => some ["meshtastic"]
  | "wifi" => some ["wi-fi", "wifi", "wlan", "wireless lan"]
  | "ble" => some ["ble", "bluetooth low energy", "bluetooth le"]
  | "nfc" => some ["nfc", "near field communication"]
  | "uwb" => some ["uwb", "ultra-wideband"]
  | "lte" => some ["lte", "4g"]
  | "5g" => some ["5g", "5g nr"]
  | "lte_m_cat_m1" => some ["lte-m", "cat-m1", "lte cat m1"]
  | "nb_iot" => some ["nb-iot", "narrowband iot"]
  | "gsm" => some ["gsm"]
  | "agw" => some ["agw"]
  | "lpwan_other" => some []
  | "gps" => some ["gps", "global positioning system"]
  | "gnss" => some ["gnss"]
  | "ethernet" => some ["ethernet", "rj45", "lan port"]
  | "poe" => some ["poe", "power over ethernet"]
  | "usb" => some ["usb"]
  | "pcie" => some ["pcie", "pci express"]
  | "twisted_pair" => some ["twisted pair"]
  | "coaxial_cable" => some ["coaxial"]
  | "i2c" => some ["i2c", "i²c"]
  | "spi" => some ["spi"]
  | "uart_serial" => some ["uart", "serial port", "rs232", "rs-232"]
  | "rs485" => some ["rs485", "rs-485"]
  | "sdi12" => some ["sdi12", "sdi-12"]
  | "can_bus" => some ["can bus", "canbus"]
  | "lin_bus" => some ["lin bus"]
  | "mqtt" => some ["mqtt"]
  | "adc" => some ["adc", "analog-to-digital", "analog input"]
  | "digital_io" => some ["digital i/o", "digital io", "gpio", "digital input", "digital output"]
  | _ => none

/-- `self.connectivity_json_to_product_keywords.get(req_conn_id, [req_conn_id])`
from `hard_matcher.py`. -/
def keywords_to_check (id : String) : List String :=
  (CONNECTIVITY_JSON_TO_PRODUCT_KEYWORDS id).getD [id]

/-! ## Data model -/

/-- A preprocessed product row, with the derived columns added by
`DataLoader.preprocess_data` (`Region_Support_List`, `Connectivity_Lower_Text`,
`Connectivity_List`, `Deployment_Environment_Lower`). -/
structure Product where
  Product_ID : String
  Product_Name : String
  Description_And_Application : String
  Notes : String
  Connectivity : String
  Region_Support_List : List String
  Connectivity_Lower_Text : String
  Connectivity_List : List String
  Deployment_Environment_Lower : String
deriving DecidableEq, Repr

/-- A raw product row as read from the catalog CSV (after NaN fill). -/
structure RawProduct where
  Product_ID : String
  Product_Name : String
  Description_And_Application : String
  Notes : String
  Connectivity : String
  Deployment_Environment : String
  Region_Support : String
deriving DecidableEq, Repr

/-- Python `[x.strip().lower() for x in s.split(',') if x.strip()]`, the
normalisation applied to `Region Support` and `Connectivity` by the loader. -/
def splitCommaNorm (s : String) : List String :=
  (splitComma s).filterMap
    (fun t => if pyStrip t = "" then none else some (pyLower (pyStrip t)))

/-- The derived-column computation of `DataLoader.preprocess_data` for one row. -/
def preprocess (r : RawProduct) : Product :=
  { Product_ID := r.Product_ID
    Product_Name := r.Product_Name
    Description_And_Application := r.Description_And_Application
    Notes := r.Notes
    Connectivity := r.Connectivity
    Region_Support_List := splitCommaNorm r.Region_Support
    Connectivity_Lower_Text := pyLower r.Connectivity
    Connectivity_List := splitCommaNorm r.Connectivity
    Deployment_Environment_Lower := pyLower r.Deployment_Environment }

/-- The requirement JSON document, flattened to the fields the core reads.
Absent JSON keys surface as `""` respectively `[]`, exactly as the chained
`.get(..., default)` calls in the Python code produce them. -/
structure Requirement where
  frequencyBand : String
  environment : String
  elaborate : List (String × List String)
  power : List String
  applicationType : String
  subtypes : List String
  otherSubtype : String
  additionalDetails : String
deriving DecidableEq, Repr

/-- Outcome of one constraint dimension: the `details` entry, the score
increment, and the explanation line it contributes. -/
structure DimResult where
  detail : Option Bool
  inc : Nat
  expl : String
deriving DecidableEq, Repr

/-- Result of `HardConstraintMatcher.check_constraints`: the
`(passed, score, details, explanation)` tuple, with the details dict as an
ordered association list. -/
structure CheckResult where
  overall_pass : Bool
  score : Nat
  details : List (String × Option Bool)
  explanation : List String
deriving DecidableEq, Repr

/-! ## Hard-constraint matcher (`hard_matcher.py`) -/

/-- Frequency-band dimension of `check_constraints` (lines 20-34). -/
def freqDim (p : Product) (req : Requirement) : DimResult :=
  let req_freq_band := pyLower req.frequencyBand
  if req_freq_band ≠ "" then
    if p.Region_Support_List.contains req_freq_band then
      { detail := some true, inc := WEIGHTS_frequency_band,
        expl := "Matched frequency band: " ++ pyUpper req_freq_band }
    else
      { detail := some false, inc := 0,
        expl := "FAILED frequency band: Product supports " ++
          pyListRepr p.Region_Support_List ++ ", required " ++ pyUpper req_freq_band }
  else
    { detail := none, inc := 0, expl := "Frequency band not specified by user." }

/-- Deployment-environment dimension of `check_constraints` (lines 37-59). -/
def envDim (p : Product) (req : Requirement) : DimResult :=
  let req_env := pyLower req.environment
  let product_env := p.Deployment_Environment_Lower
  if req_env ≠ "" then
    let matched_env : Bool :=
      product_env == req_env ||
      (req_env == "both" && ["indoor", "outdoor", "both", ""].contains product_env) ||
      (product_env == "both" && ["indoor", "outdoor"].contains req_env)
    if matched_env then
      { detail := some true, inc := WEIGHTS_environment,
        expl := "Matched environment: User " ++ sq ++ pyCapitalize req_env ++ sq ++
          ", Product " ++ sq ++ pyCapitalize product_env ++ sq }
    else
      { detail := some false, inc := 0,
        expl := "FAILED environment: Product is " ++ sq ++ pyCapitalize product_env ++ sq ++
          ", required " ++ sq ++ pyCapitalize req_env ++ sq }
  else
    { detail := none, inc := 0, expl := "Deployment environment not specified by user." }

/-- The flattened, lower-cased, deduplicated connectivity request ids
(`user_connectivity_reqs_ids`, lines 63-67). -/
def flattenConnectivity (req : Requirement) : List String :=
  dedupFirst ((req.elaborate.flatMap (fun c => c.2)).map pyLower)

/-- One requested connectivity id matches the product when any of its synonym
keywords is an element of the pre-split connectivity list, or — when the
lower-cased connectivity text is non-empty — a substring of that text
(line 80). -/
def connTokenMatches (p : Product) (id : String) : Bool :=
  (keywords_to_check id).any (fun kw =>
    p.Connectivity_List.contains kw ||
      (p.Connectivity_Lower_Text ≠ "" && substrIn kw p.Connectivity_Lower_Text))

/-- Connectivity dimension of `check_constraints` (lines 62-98).  The loop
adds `WEIGHTS["connectivity_option"]` once per requested id whose keyword scan
succeeds (the inner loop breaks on the first matching keyword). -/
def connDim (p : Product) (req : Requirement) : DimResult :=
  let flat := flattenConnectivity req
  if flat ≠ [] then
    let matched := flat.filter (connTokenMatches p)
    if matched ≠ [] then
      { detail := some true, inc := WEIGHTS_connectivity_option * matched.length,
        expl := "Matched connectivity options: " ++
          String.intercalate ", " (sortStringsAsc (dedupFirst (matched.map pyUpper))) }
    else
      { detail := some false, inc := 0,
        expl := "FAILED connectivity: No product match for user required options: " ++
          String.intercalate ", " flat }
  else
    { detail := none, inc := 0, expl := "Connectivity not specified by user." }

/-- The text power keywords are searched in: description and notes joined by a
space and lower-cased (lines 103-104). -/
def productTextForPower (p : Product) : String :=
  pyLower (p.Description_And_Application ++ " " ++ p.Notes)

/-- For each requested power label the first matching keyword, rendered as the
Python code records it (lines 109-117; the inner loop breaks on the first
match for a label). -/
def powerKeywordsFound (p : Product) (labels : List String) : List String :=
  labels.filterMap (fun label =>
    ((POWER_KEYWORD_MAPPING label).find?
        (fun kw => wbSearch kw (productTextForPower p))).map
      (fun kw => sq ++ kw ++ sq ++ " (for " ++ label ++ ")"))

/-- Power dimension of `check_constraints` (lines 101-131).  The weight is
added once when any keyword of any requested label matched. -/
def powerDim (p : Product) (req : Requirement) : DimResult :=
  if req.power ≠ [] then
    let found := powerKeywordsFound p req.power
    if found ≠ [] then
      { detail := some true, inc := WEIGHTS_power_keyword,
        expl := "Power requirement(s) met: Found " ++
          String.intercalate ", " (dedupFirst found) }
    else
      { detail := some false, inc := 0,
        expl := "FAILED power: No product match for user required power options (" ++
          String.intercalate ", " req.power ++ ") in product description/notes." }
  else
    { detail := none, inc := 0, expl := "Power requirements not specified by user." }

/-- `HardConstraintMatcher.check_constraints`: the four dimensions are
evaluated in order; `overall_pass` starts `True` and is cleared by every
failing dimension; `score` accumulates the increments; the details dict gains
one key and the explanation one line per dimension. -/
def check_constraints (p : Product) (req : Requirement) : CheckResult :=
  let f := freqDim p req
  let e := envDim p req
  let c := connDim p req
  let w := powerDim p req
  { overall_pass :=
      (f.detail != some false) && (e.detail != some false) &&
      (c.detail != some false) && (w.detail != some false)
    score := f.inc + e.inc + c.inc + w.inc
    details :=
      [("frequency_band", f.detail), ("environment", e.detail),
       ("connectivity", c.detail), ("power", w.detail)]
    explanation := [f.expl, e.expl, c.expl, w.expl] }

/-! ## Corpus builder (`soft_matcher.py`) -/

/-- A pandas cell of the id columns: the CSV reader may deliver strings or
integers; `astype(str)` stringifies them. -/
inductive Cell where
  | str (v : String)
  | int (v : Int)
deriving DecidableEq, Repr

/-- Python `str(cell)` / pandas `astype(str)` on one cell. -/
def Cell.toStr : Cell → String
  | .str v => v
  | .int v => toString v

/-- The cell already holds a string. -/
def Cell.isStr : Cell → Bool
  | .str _ => true
  | .int _ => false

/-- Pandas `==` between a cell and a Python string (mixed types never equal). -/
def cellEqString (c : Cell) (s : String) : Bool :=
  match c with
  | .str v => v == s
  | .int _ => false

/-- Pandas equality between two cells, as `isin` uses it. -/
def cellEq (a b : Cell) : Bool :=
  match a, b with
  | .str v, .str w => v == w
  | .int v, .int w => v == w
  | _, _ => false

/-- A row of the features table. -/
structure FeatureRow where
  Feature_ID : Cell
  Feature_Name : String
  Feature_Description : String
deriving DecidableEq, Repr

/-- A row of the product-feature mapping table. -/
structure MapRow where
  Product_ID : Cell
  Feature_ID : Cell
deriving DecidableEq, Repr

/-- The feature ids associated to a product id via the mapping table
(`product_feature_map_df[product_feature_map_df['Product_ID'] == product_id]['Feature_ID']`,
lines 39-41 of `soft_matcher.py`). -/
def associated_feature_ids (mapping : List MapRow) (product_id : String) : List Cell :=
  (mapping.filter (fun m => cellEqString m.Product_ID product_id)).map
    (fun m => m.Feature_ID)

/-- `features_df['Feature_ID'].astype(str)` written back over the id column
(line 45 of `soft_matcher.py`). -/
def astypeStrColumn (features : List FeatureRow) : List FeatureRow :=
  features.map (fun f => { f with Feature_ID := Cell.str f.Feature_ID.toStr })

/-- The descriptions of the features whose (stringified) id is in the
associated id list (`features_df[features_df['Feature_ID'].isin(...)]
['Feature_Description']`, lines 46-48). -/
def feature_descriptions (features2 : List FeatureRow) (ids : List Cell) : List String :=
  (features2.filter (fun f => ids.any (fun c => cellEq f.Feature_ID c))).map
    (fun f => f.Feature_Description)

/-- `SoftMatcher.build_product_corpus` (lines 21-54).  Besides the corpus
string it returns the features table as left behind by the call, because
line 45 (`features_df['Feature_ID'] = features_df['Feature_ID'].astype(str)`)
writes the stringified id column back into the caller-supplied table. -/
def build_product_corpus (row : Product) (features : List FeatureRow)
    (mapping : List MapRow) : String × List FeatureRow :=
  let texts0 := [row.Description_And_Application, row.Notes, row.Connectivity]
  let product_id := row.Product_ID
  let sel : List String × List FeatureRow :=
    if features ≠ [] ∧ mapping ≠ [] then
      if product_id ≠ "" then
        if associated_feature_ids mapping product_id ≠ [] then
          (texts0 ++ feature_descriptions (astypeStrColumn features)
              (associated_feature_ids mapping product_id),
            astypeStrColumn features)
        else (texts0, features)
      else (texts0, features)
    else (texts0, features)
  let full_text := String.intercalate " " (sel.1.filter (· ≠ ""))
  (pyLower (pyNormalize full_text), sel.2)

/-- `SoftMatcher.build_requirement_query` (lines 57-75). -/
def build_requirement_query (req : Requirement) : String :=
  let query_parts :=
    [req.applicationType] ++
    (if req.subtypes ≠ [] then [String.intercalate " " req.subtypes] else []) ++
    (if req.otherSubtype ≠ "" then [req.otherSubtype] else []) ++
    [req.additionalDetails]
  let full_query := String.intercalate " " (query_parts.filter (· ≠ ""))
  pyLower (pyNormalize full_query)

/-! ## Ranking engine (`recommender.py`)

Floating-point numbers are modelled by `Rat`; the external
sentence-transformer model is an oracle. -/

/-- The state of the `SoftMatcher` seen from `recommend`: whether the model
loaded (`self.model is None` otherwise), the encode capability
(`none` models an encoding exception) and the cosine-similarity kernel
(`util.pytorch_cos_sim`, flattened to one score per candidate). -/
structure SoftProvider where
  modelAvailable : Bool
  encode : List String → Option (List (List Rat))
  cos : List Rat → List (List Rat) → List Rat

/-- A product row of the recommender after precomputation: the catalog row
plus its cached embedding column (`[]` models an empty / failed embedding,
`np.array([])`). -/
structure ProductRow where
  product : Product
  embedding : List Rat
deriving DecidableEq, Repr

/-- One entry of `recommendation_data` (the per-candidate dicts built in
`recommend`).  Both branches of the code are mapped onto the same record
shape; `hc_explanation` duplicates the matcher explanation that the full
`explanation` extends. -/
structure RecData where
  product_id : String
  product_name : String
  hc_score : Nat
  hc_details : List (String × Option Bool)
  hc_explanation : List String
  similarity_score : Rat
  final_score : Rat
  explanation : List String
deriving DecidableEq, Repr

/-- One formatted output record of `recommend` (lines 171-180). -/
structure OutputRec where
  Product_ID : String
  Product_Name : String
  Hard_Constraints_Passed_Details : List (String × Option Bool)
  Text_Similarity : Rat
  Final_Score : Rat
  Explanation_Details : List String
deriving DecidableEq, Repr

/-- Round to the nearest integer, ties to even — Python `round` on the
rational model of floats. -/
def roundHalfEven (q : Rat) : Int :=
  let f := ⌊q⌋
  let r := q - (f : Rat)
  if r < 1 / 2 then f
  else if 1 / 2 < r then f + 1
  else if f % 2 = 0 then f else f + 1

/-- Python `round(q, d)`. -/
def roundDp (d : Nat) (q : Rat) : Rat :=
  (roundHalfEven (q * ((10 ^ d : Nat) : Rat)) : Rat) / ((10 ^ d : Nat) : Rat)

/-- Fixed-point rendering of a non-negative hundredth count as `i.ff`. -/
def fmt2core (k : Nat) : String :=
  toString (k / 100) ++ "." ++
    (if k % 100 < 10 then "0" ++ toString (k % 100) else toString (k % 100))

/-- Python `f"{q:.2f}"` on the rational model of floats. -/
def fmt2 (q : Rat) : String :=
  let m := roundHalfEven (q * 100)
  if m < 0 then "-" ++ fmt2core (-m).toNat else fmt2core m.toNat

/-- `SoftMatcher.get_embeddings` (lines 77-90): `none` when the model is
unavailable or encoding raised; the empty batch short-circuits to an empty
result. -/
def get_embeddings (sp : SoftProvider) (texts : List String) : Option (List (List Rat)) :=
  if sp.modelAvailable = false then none
  else if texts = [] ∨ texts.all (· = "") then some []
  else sp.encode texts

/-- `SoftMatcher.calculate_similarity` (lines 92-114) specialised to the
non-degenerate inputs `recommend` hands it: empty candidate list gives an
empty result, otherwise the cosine kernel runs on the whole batch. -/
def calculate_similarity (sp : SoftProvider) (q : List Rat)
    (embs : List (List Rat)) : List Rat :=
  if embs = [] then [] else sp.cos q embs

/-- Positional assignment of the similarity scores to the candidates with a
usable embedding (lines 128-146): candidates without one keep the 0.0
initialisation and do not consume a score. -/
def assignSims :
    List (ProductRow × CheckResult) → List Rat → List ((ProductRow × CheckResult) × Rat)
  | [], _ => []
  | c :: cs, sims =>
    if c.1.embedding ≠ [] then
      match sims with
      | [] => (c, 0) :: assignSims cs []
      | s :: rest => (c, s) :: assignSims cs rest
    else (c, 0) :: assignSims cs sims

/-- The per-candidate dict of the two degraded branches (lines 94-104 and
110-120), parameterised by the explanatory note they append. -/
def degradedRecord (note : String) (pr : ProductRow × CheckResult) : RecData :=
  { product_id := pr.1.product.Product_ID
    product_name := pr.1.product.Product_Name
    hc_score := pr.2.score
    hc_details := pr.2.details
    hc_explanation := pr.2.explanation
    similarity_score := 0
    final_score := (pr.2.score : Rat)
    explanation := pr.2.explanation ++ [note] }

/-- The per-candidate dict of the similarity branch (lines 149-165). -/
def simRecord (x : (ProductRow × CheckResult) × Rat) : RecData :=
  let similarity := x.2
  let scaled := similarity * WEIGHTS_text_similarity_scale
  let final := (x.1.2.score : Rat) + scaled
  { product_id := x.1.1.product.Product_ID
    product_name := x.1.1.product.Product_Name
    hc_score := x.1.2.score
    hc_details := x.1.2.details
    hc_explanation := x.1.2.explanation
    similarity_score := roundDp 4 similarity
    final_score := roundDp 2 final
    explanation := x.1.2.explanation ++
      ["Text Similarity Score: " ++ fmt2 similarity ++ " (scaled: " ++ fmt2 scaled ++ ")"] }

/-- Hard-constraint filtering (lines 60-72): every catalog row is evaluated
and the passing ones are kept, in catalog order, with their matcher result. -/
def survivors (rows : List ProductRow) (req : Requirement) :
    List (ProductRow × CheckResult) :=
  (rows.map (fun r => (r, check_constraints r.product req))).filter
    (fun pr => pr.2.overall_pass)

/-- The `recommendation_data` list built by `recommend` (lines 90-165):
degraded branch when the query is blank or the model is missing, second
degraded branch when the query embedding fails, otherwise the similarity
branch. -/
def recommendation_data (sp : SoftProvider) (rows : List ProductRow)
    (req : Requirement) : List RecData :=
  let cands := survivors rows req
  let q := build_requirement_query req
  if pyStrip q = "" ∨ sp.modelAvailable = false then
    cands.map (degradedRecord "Text Similarity: 0.00 (Query empty or model issue)")
  else
    match get_embeddings sp [q] with
    | none => cands.map (degradedRecord "Text Similarity: 0.00 (Query embedding failed)")
    | some [] => cands.map (degradedRecord "Text Similarity: 0.00 (Query embedding failed)")
    | some (qe :: _) =>
      let valids := (cands.filter (fun pr => pr.1.embedding ≠ [])).map
        (fun pr => pr.1.embedding)
      let sims := if valids = [] then [] else calculate_similarity sp qe valids
      (assignSims cands sims).map simRecord

/-- Insertion into a descending list: the new element goes after every
earlier element with a strictly higher or equal score only when the score is
strictly higher, so equal scores keep their relative order. -/
def insertByScore (x : RecData) : List RecData → List RecData
  | [] => [x]
  | y :: ys => if x.final_score < y.final_score then y :: insertByScore x ys else x :: y :: ys

/-- Stable descending sort by `final_score`, the model of Python
`sorted(recommendation_data, key=lambda x: x['final_score'], reverse=True)`
(line 168; Python `sorted` is stable, also under `reverse=True`). -/
def stableSortDesc : List RecData → List RecData
  | [] => []
  | x :: xs => insertByScore x (stableSortDesc xs)

/-- Output formatting of one ranked record (lines 172-180). -/
def formatOutput (r : RecData) : OutputRec :=
  { Product_ID := r.product_id
    Product_Name := r.product_name
    Hard_Constraints_Passed_Details := r.hc_details
    Text_Similarity := r.similarity_score
    Final_Score := r.final_score
    Explanation_Details := r.explanation }

/-- `ProductRecommender.recommend` (lines 54-182).  The Python default for
`top_n` is 5. -/
def recommend (sp : SoftProvider) (rows : List ProductRow) (req : Requirement)
    (top_n : Nat := 5) : List OutputRec :=
  if rows = [] then []
  else if survivors rows req = [] then []
  else ((stableSortDesc (recommendation_data sp rows req)).take top_n).map formatOutput

/-! ## Lemmas and claim theorems -/


theorem squeeze_cons_not_spc (b : Char) (X : List Char) (h : isSpc b = false) :
    squeeze (b :: X) = b :: squeeze X := by
  cases X with
  | nil => simp [squeeze, h]
  | cons c t => simp [squeeze, h]

theorem isSpc_space : isSpc ' ' = true := by decide

theorem squeeze_cons_spc (a b : Char) (t : List Char) (ha : isSpc a = true)
    (hb : isSpc b = false) : squeeze (a :: b :: t) = ' ' :: squeeze (b :: t) := by
  rw [squeeze]
  simp [ha, hb]

theorem squeeze_squeeze (l : List Char) : squeeze (squeeze l) = squeeze l := by
  induction l with
  | nil => simp [squeeze]
  | cons a t ih =>
    cases t with
    | nil =>
      by_cases h : isSpc a = true
      · simp [squeeze, h]
      · simp only [Bool.not_eq_true] at h
        simp [squeeze, h]
    | cons b t2 =>
      rw [squeeze]
      split
      case isTrue hab => exact ih
      case isFalse hab =>
        by_cases hb : isSpc b = true
        · have ha : isSpc a = false := by
            by_cases ha : isSpc a = true
            · exact absurd (by simp [ha, hb]) hab
            · simpa using ha
          rw [if_neg (by simp [ha]), squeeze_cons_not_spc a _ ha, ih]
        · simp only [Bool.not_eq_true] at hb
          have hsq : squeeze (b :: t2) = b :: squeeze t2 := squeeze_cons_not_spc b t2 hb
          rw [hsq] at ih ⊢
          by_cases ha : isSpc a = true
          · rw [if_pos (by simp [ha]), squeeze_cons_spc ' ' b _ isSpc_space hb, ih]
          · simp only [Bool.not_eq_true] at ha
            rw [if_neg (by simp [ha]), squeeze_cons_not_spc a _ ha, ih]

theorem squeeze_length (l : List Char) : (squeeze l).length ≤ l.length := by
  induction l with
  | nil => simp [squeeze]
  | cons a t ih =>
    cases t with
    | nil => simp [squeeze]
    | cons b t2 =>
      rw [squeeze]
      split
      · exact Nat.le_trans ih (by simp)
      · simpa using ih

theorem squeeze_fixed_tail (c : Char) (t : List Char) (h : squeeze (c :: t) = c :: t) :
    squeeze t = t := by
  cases t with
  | nil => simp [squeeze]
  | cons b t2 =>
    rw [squeeze] at h
    split at h
    · have hlen := congrArg List.length h
      have hl := squeeze_length (b :: t2)
      simp only [List.length_cons] at hlen hl
      omega
    · injection h with h1 h2

theorem squeeze_fixed_head_spc (c : Char) (t : List Char) (h : squeeze (c :: t) = c :: t)
    (hc : isSpc c = true) : c = ' ' := by
  cases t with
  | nil =>
    simp [squeeze, hc] at h
    exact h.symm
  | cons b t2 =>
    by_cases hb : isSpc b = true
    · rw [squeeze, if_pos (by simp [hc, hb])] at h
      have hlen := congrArg List.length h
      have hl := squeeze_length (b :: t2)
      simp only [List.length_cons] at hlen hl
      omega
    · rw [squeeze, if_neg (by simp [hb])] at h
      simp only [hc, if_true] at h
      injection h with h1 h2
      exact h1.symm

theorem squeeze_fixed_pair (c b : Char) (t2 : List Char)
    (h : squeeze (c :: b :: t2) = c :: b :: t2) (hc : isSpc c = true) :
    isSpc b = false := by
  rw [squeeze] at h
  split at h
  · have hlen := congrArg List.length h
    have hl := squeeze_length (b :: t2)
    simp only [List.length_cons] at hlen hl
    omega
  · rename_i hab
    by_cases hb : isSpc b = true
    · exact absurd (by simp [hc, hb]) hab
    · simpa using hb

theorem dropWhile_fixed (m : List Char) (h : squeeze m = m) :
    squeeze (m.dropWhile isSpc) = m.dropWhile isSpc := by
  induction m with
  | nil => simp [squeeze]
  | cons c t ih =>
    by_cases hc : isSpc c = true
    · rw [List.dropWhile_cons_of_pos (by simp [hc])]
      exact ih (squeeze_fixed_tail c t h)
    · rw [List.dropWhile_cons_of_neg (by simp [hc])]
      exact h

theorem rstrip_head (l : List Char) : rstrip l = [] ∨ (rstrip l).head? = l.head? := by
  cases l with
  | nil => left; rfl
  | cons c t =>
    rw [rstrip]
    cases hrt : rstrip t with
    | nil =>
      by_cases hc : isSpc c = true
      · left; simp [hc]
      · right; simp [hc]
    | cons r0 r2 => right; rfl

theorem rstrip_rstrip (l : List Char) : rstrip (rstrip l) = rstrip l := by
  induction l with
  | nil => rfl
  | cons c t ih =>
    rw [rstrip]
    cases hrt : rstrip t with
    | nil =>
      by_cases hc : isSpc c = true
      · simp [hc, rstrip]
      · simp [hc, rstrip]
    | cons r0 r2 =>
      rw [rstrip]
      rw [hrt] at ih
      rw [ih]

theorem rstrip_fixed (m : List Char) (h : squeeze m = m) :
    squeeze (rstrip m) = rstrip m := by
  induction m with
  | nil => rfl
  | cons c t ih =>
    have ht : squeeze t = t := squeeze_fixed_tail c t h
    have hr := ih ht
    rw [rstrip]
    cases hrt : rstrip t with
    | nil =>
      by_cases hc : isSpc c = true
      · rw [if_pos hc]
        rfl
      · rw [if_neg hc]
        simp only [Bool.not_eq_true] at hc
        simp [squeeze, hc]
    | cons r0 r2 =>
      by_cases hc : isSpc c = true
      · have hceq : c = ' ' := squeeze_fixed_head_spc c t h hc
        cases t with
        | nil => simp [rstrip] at hrt
        | cons b t2 =>
          have hb : isSpc b = false := squeeze_fixed_pair c b t2 h hc
          have hhd := rstrip_head (b :: t2)
          rw [hrt] at hhd
          rcases hhd with h' | h'
          · simp at h'
          · simp at h'
            subst h'
            rw [squeeze_cons_spc c r0 r2 hc hb]
            rw [hrt] at hr
            rw [hr, hceq]
      · simp only [Bool.not_eq_true] at hc
        rw [squeeze_cons_not_spc c _ hc]
        rw [hrt] at hr
        rw [hr]

theorem dropWhile_head_not_spc (l : List Char) (c : Char)
    (h : (l.dropWhile isSpc).head? = some c) : isSpc c = false := by
  induction l with
  | nil => simp at h
  | cons a t ih =>
    by_cases ha : isSpc a = true
    · rw [List.dropWhile_cons_of_pos (by simp [ha])] at h
      exact ih h
    · rw [List.dropWhile_cons_of_neg (by simp [ha])] at h
      simp at h
      subst h
      simpa using ha

theorem dropWhile_eq_self_of_head (l : List Char)
    (h : ∀ c, l.head? = some c → isSpc c = false) : l.dropWhile isSpc = l := by
  cases l with
  | nil => rfl
  | cons a t =>
    have := h a rfl
    rw [List.dropWhile_cons_of_neg (by simp [this])]

theorem stripWs_fixed (y : List Char) (hy : squeeze y = y) :
    stripWs (stripWs y) = stripWs y ∧ squeeze (stripWs y) = stripWs y := by
  have hw : squeeze (y.dropWhile isSpc) = y.dropWhile isSpc := dropWhile_fixed y hy
  have hz : squeeze (stripWs y) = stripWs y := rstrip_fixed _ hw
  refine ⟨?_, hz⟩
  unfold stripWs
  have hdz : (rstrip (y.dropWhile isSpc)).dropWhile isSpc = rstrip (y.dropWhile isSpc) := by
    apply dropWhile_eq_self_of_head
    intro c hc
    rcases rstrip_head (y.dropWhile isSpc) with h' | h'
    · rw [h'] at hc
      simp at hc
    · rw [h'] at hc
      exact dropWhile_head_not_spc y c hc
  rw [hdz, rstrip_rstrip]

theorem pyNormalize_idem (s : String) : pyNormalize (pyNormalize s) = pyNormalize s := by
  unfold pyNormalize
  have hy : squeeze (squeeze s.data) = squeeze s.data := squeeze_squeeze s.data
  have h1 := stripWs_fixed (squeeze s.data) hy
  show String.mk (stripWs (squeeze (stripWs (squeeze s.data)))) = _
  rw [h1.2, h1.1]

theorem ofNatAux_toNat (n : Nat) (h : n.isValidChar) : (Char.ofNatAux n h).toNat = n := by
  simp [Char.ofNatAux, Char.toNat, UInt32.toNat]

theorem ofNat_toNat_valid (n : Nat) (h : n.isValidChar) : (Char.ofNat n).toNat = n := by
  simp [Char.ofNat, dif_pos h, ofNatAux_toNat]

theorem toLower_toNat (c : Char) (h : 65 ≤ c.toNat ∧ c.toNat ≤ 90) :
    (Char.toLower c).toNat = c.toNat + 32 := by
  have hv : (c.toNat + 32).isValidChar := by
    left
    omega
  have h2 : c.toNat ≥ 65 ∧ c.toNat ≤ 90 := ⟨h.1, h.2⟩
  simp only [Char.toLower, if_pos h2]
  exact ofNat_toNat_valid _ hv

theorem toLower_eq_self (c : Char) (h : ¬(65 ≤ c.toNat ∧ c.toNat ≤ 90)) :
    Char.toLower c = c := by
  simp only [Char.toLower, ite_eq_right_iff]
  intro h2
  exact absurd ⟨h2.1, h2.2⟩ h

theorem toLower_toLower (c : Char) : Char.toLower (Char.toLower c) = Char.toLower c := by
  by_cases h : 65 ≤ c.toNat ∧ c.toNat ≤ 90
  · have h1 := toLower_toNat c h
    apply toLower_eq_self
    omega
  · rw [toLower_eq_self c h, toLower_eq_self c h]

theorem isWhitespace_toNat (d : Char) (hd : d.isWhitespace = true) :
    d.toNat = 32 ∨ d.toNat = 9 ∨ d.toNat = 13 ∨ d.toNat = 10 := by
  simp only [Char.isWhitespace, Bool.or_eq_true, decide_eq_true_eq] at hd
  rcases hd with ((h | h) | h) | h <;> subst h <;> decide

theorem isSpc_toLower (c : Char) : isSpc (Char.toLower c) = isSpc c := by
  unfold isSpc
  by_cases h : 65 ≤ c.toNat ∧ c.toNat ≤ 90
  · have h1 := toLower_toNat c h
    have hA : (Char.toLower c).isWhitespace = false := by
      rw [← Bool.not_eq_true]
      intro hw
      have := isWhitespace_toNat _ hw
      omega
    have hB : c.isWhitespace = false := by
      rw [← Bool.not_eq_true]
      intro hw
      have := isWhitespace_toNat _ hw
      omega
    rw [hA, hB]
  · rw [toLower_eq_self c h]

theorem toLower_space : Char.toLower ' ' = ' ' := by decide

theorem dropWhile_map_toLower (l : List Char) :
    (l.map Char.toLower).dropWhile isSpc = (l.dropWhile isSpc).map Char.toLower := by
  induction l with
  | nil => rfl
  | cons a t ih =>
    by_cases ha : isSpc a = true
    · rw [List.map_cons, List.dropWhile_cons_of_pos (by simp [isSpc_toLower, ha]),
        List.dropWhile_cons_of_pos (by simp [ha])]
      exact ih
    · rw [List.map_cons, List.dropWhile_cons_of_neg (by simp [isSpc_toLower, ha]),
        List.dropWhile_cons_of_neg (by simp [ha])]
      rfl

theorem rstrip_map_toLower (l : List Char) :
    rstrip (l.map Char.toLower) = (rstrip l).map Char.toLower := by
  induction l with
  | nil => rfl
  | cons c t ih =>
    rw [List.map_cons, rstrip, rstrip, ih]
    cases hrt : rstrip t with
    | nil =>
      simp only [List.map_nil]
      rw [isSpc_toLower]
      by_cases hc : isSpc c = true
      · rw [if_pos hc, if_pos hc]
        rfl
      · rw [if_neg hc, if_neg hc]
        rfl
    | cons r0 r2 => simp

theorem squeeze_map_toLower (l : List Char) :
    squeeze (l.map Char.toLower) = (squeeze l).map Char.toLower := by
  induction l with
  | nil => rfl
  | cons a t ih =>
    cases t with
    | nil =>
      simp only [List.map_cons, List.map_nil, squeeze]
      rw [isSpc_toLower]
      by_cases ha : isSpc a = true
      · rw [if_pos ha, if_pos ha, toLower_space]
      · rw [if_neg ha, if_neg ha]
    | cons b t2 =>
      simp only [List.map_cons] at ih ⊢
      rw [squeeze, squeeze]
      by_cases hab : (isSpc a && isSpc b) = true
      · rw [if_pos (by simp only [isSpc_toLower]; exact hab), if_pos hab]
        exact ih
      · rw [if_neg (by simp only [isSpc_toLower]; exact hab), if_neg hab]
        rw [ih, isSpc_toLower]
        by_cases ha : isSpc a = true
        · rw [if_pos ha, if_pos ha, List.map_cons, toLower_space]
        · rw [if_neg ha, if_neg ha, List.map_cons]

theorem stripWs_map_toLower (l : List Char) :
    stripWs (l.map Char.toLower) = (stripWs l).map Char.toLower := by
  unfold stripWs
  rw [dropWhile_map_toLower, rstrip_map_toLower]

theorem pyLower_data (s : String) : (pyLower s).data = s.data.map Char.toLower := rfl

theorem pyLower_pyLower (s : String) : pyLower (pyLower s) = pyLower s := by
  unfold pyLower
  apply congrArg String.mk
  show (s.data.map Char.toLower).map Char.toLower = _
  rw [List.map_map]
  have hfun : Char.toLower ∘ Char.toLower = Char.toLower := funext toLower_toLower
  rw [hfun]

theorem pyNormalize_pyLower (s : String) :
    pyNormalize (pyLower s) = pyLower (pyNormalize s) := by
  unfold pyNormalize pyLower
  apply congrArg String.mk
  show stripWs (squeeze (s.data.map Char.toLower)) = _
  rw [squeeze_map_toLower, stripWs_map_toLower]

/-- Claim C10: for every product and requirement the evaluator result has a
fixed shape — the details map holds exactly the four dimension keys in order,
the explanation has one line per dimension, and the overall flag is true
exactly when no dimension detail is `false`. -/
theorem claim_C10 (p : Product) (req : Requirement) :
    (check_constraints p req).details.map Prod.fst =
      ["frequency_band", "environment", "connectivity", "power"] ∧
    (check_constraints p req).explanation.length = 4 ∧
    ((check_constraints p req).overall_pass = true ↔
      ∀ kv ∈ (check_constraints p req).details, kv.2 ≠ some false) := by
  refine ⟨rfl, rfl, ?_⟩
  simp only [check_constraints, Bool.and_eq_true, bne_iff_ne, ne_eq,
    List.mem_cons, List.not_mem_nil, or_false, List.mem_singleton]
  constructor
  · rintro ⟨⟨⟨h1, h2⟩, h3⟩, h4⟩ kv hkv
    rcases hkv with h | h | h | h <;> subst h <;> simpa
  · intro h
    refine ⟨⟨⟨?_, ?_⟩, ?_⟩, ?_⟩
    · exact h _ (Or.inl rfl)
    · exact h _ (Or.inr (Or.inl rfl))
    · exact h _ (Or.inr (Or.inr (Or.inl rfl)))
    · exact h _ (Or.inr (Or.inr (Or.inr rfl)))

/-- Claim C6: a requirement with every constraint dimension absent passes the
evaluator for every product, with score 0 and all four dimension outcomes
null. -/
theorem claim_C6 (p : Product) (req : Requirement)
    (h1 : req.frequencyBand = "") (h2 : req.environment = "")
    (h3 : flattenConnectivity req = []) (h4 : req.power = []) :
    (check_constraints p req).overall_pass = true ∧
    (check_constraints p req).score = 0 ∧
    (check_constraints p req).details =
      [("frequency_band", none), ("environment", none),
       ("connectivity", none), ("power", none)] := by
  have hf : freqDim p req = ⟨none, 0, "Frequency band not specified by user."⟩ := by
    rw [freqDim, h1]
    simp [pyLower]
  have he : envDim p req = ⟨none, 0, "Deployment environment not specified by user."⟩ := by
    rw [envDim, h2]
    simp [pyLower]
  have hc : connDim p req = ⟨none, 0, "Connectivity not specified by user."⟩ := by
    rw [connDim]
    simp [h3]
  have hw : powerDim p req = ⟨none, 0, "Power requirements not specified by user."⟩ := by
    rw [powerDim]
    simp [h4]
  rw [check_constraints, hf, he, hc, hw]
  refine ⟨rfl, rfl, rfl⟩

/-- Claim C6 witness at a fully-unconstrained concrete requirement. -/
theorem claim_C6_witness :
    let p : Product := ⟨"w1", "W1", "d", "n", "c", ["us915"], "c", ["c"], "indoor"⟩
    let req : Requirement := ⟨"", "", [("cat", [])], [], "t", [], "", ""⟩
    req.frequencyBand = "" ∧ req.environment = "" ∧
      flattenConnectivity req = [] ∧ req.power = [] ∧
      ((check_constraints p req).overall_pass = true ∧
       (check_constraints p req).score = 0 ∧
       (check_constraints p req).details =
         [("frequency_band", none), ("environment", none),
          ("connectivity", none), ("power", none)]) :=
  ⟨rfl, rfl, by decide, rfl, claim_C6 _ _ rfl rfl (by decide) rfl⟩

/-- Claim C5: with a specified deployment environment, the environment
dimension passes exactly for case-insensitive equality, for requirement
"both" against product indoor/outdoor/both/unspecified, or for product
"both" against requirement indoor/outdoor; every other combination fails
the dimension. -/
theorem claim_C5 (rp : RawProduct) (req : Requirement)
    (h : pyLower req.environment ≠ "") :
    ((envDim (preprocess rp) req).detail = some true ↔
      (pyLower rp.Deployment_Environment = pyLower req.environment ∨
       (pyLower req.environment = "both" ∧
         (pyLower rp.Deployment_Environment = "indoor" ∨
          pyLower rp.Deployment_Environment = "outdoor" ∨
          pyLower rp.Deployment_Environment = "both" ∨
          pyLower rp.Deployment_Environment = "")) ∨
       (pyLower rp.Deployment_Environment = "both" ∧
         (pyLower req.environment = "indoor" ∨ pyLower req.environment = "outdoor")))) ∧
    ((envDim (preprocess rp) req).detail = some true ∨
     (envDim (preprocess rp) req).detail = some false) := by
  have hpe : (preprocess rp).Deployment_Environment_Lower = pyLower rp.Deployment_Environment := rfl
  rw [envDim, hpe, if_pos h]
  set D := pyLower rp.Deployment_Environment with hD
  set R := pyLower req.environment with hR
  have hcond : (D == R ||
      (R == "both" && ["indoor", "outdoor", "both", ""].contains D) ||
      (D == "both" && ["indoor", "outdoor"].contains R)) = true ↔
      (D = R ∨
       (R = "both" ∧ (D = "indoor" ∨ D = "outdoor" ∨ D = "both" ∨ D = "")) ∨
       (D = "both" ∧ (R = "indoor" ∨ R = "outdoor"))) := by
    simp [List.contains, or_assoc]
  by_cases hm : (D == R ||
      (R == "both" && ["indoor", "outdoor", "both", ""].contains D) ||
      (D == "both" && ["indoor", "outdoor"].contains R)) = true
  · constructor
    · rw [if_pos hm]
      exact ⟨fun _ => hcond.mp hm, fun _ => rfl⟩
    · rw [if_pos hm]
      exact Or.inl rfl
  · constructor
    · rw [if_neg hm]
      refine ⟨fun hfalse => absurd hfalse (by simp), fun hx => absurd (hcond.mpr hx) hm⟩
    · rw [if_neg hm]
      exact Or.inr rfl

/-- Claim C5 witness: requirement "indoor" against a product whose raw
environment is "Both". -/
theorem claim_C5_witness :
    let rp : RawProduct := ⟨"p", "P", "d", "n", "c", "Both", "US915"⟩
    let req : Requirement := ⟨"", "indoor", [], [], "", [], "", ""⟩
    pyLower req.environment ≠ "" ∧
      (((envDim (preprocess rp) req).detail = some true ↔
        (pyLower rp.Deployment_Environment = pyLower req.environment ∨
         (pyLower req.environment = "both" ∧
           (pyLower rp.Deployment_Environment = "indoor" ∨
            pyLower rp.Deployment_Environment = "outdoor" ∨
            pyLower rp.Deployment_Environment = "both" ∨
            pyLower rp.Deployment_Environment = "")) ∨
         (pyLower rp.Deployment_Environment = "both" ∧
           (pyLower req.environment = "indoor" ∨ pyLower req.environment = "outdoor")))) ∧
       ((envDim (preprocess rp) req).detail = some true ∨
        (envDim (preprocess rp) req).detail = some false)) :=
  ⟨by decide, claim_C5 _ _ (by decide)⟩

/-- Claim C2: with a non-empty power label list, the power dimension passes
exactly when some requested label has a keyword phrase that word-boundary
matches the lower-cased concatenation of description and notes, and the
power weight is added at most once per evaluation. -/
theorem claim_C2 (p : Product) (req : Requirement) (h : req.power ≠ []) :
    ((powerDim p req).detail = some true ↔
      ∃ label ∈ req.power, ∃ kw ∈ POWER_KEYWORD_MAPPING label,
        wbSearch kw (productTextForPower p) = true) ∧
    (powerDim p req).inc =
      (if (powerDim p req).detail = some true then WEIGHTS_power_keyword else 0) ∧
    (powerDim p req).inc ≤ WEIGHTS_power_keyword ∧
    (check_constraints p req).details.lookup "power" = some ((powerDim p req).detail) := by
  have hfound : powerKeywordsFound p req.power = [] ↔
      ∀ label ∈ req.power, ∀ kw ∈ POWER_KEYWORD_MAPPING label,
        wbSearch kw (productTextForPower p) = false := by
    rw [powerKeywordsFound, List.filterMap_eq_nil_iff]
    constructor
    · intro hall label hl kw hkw
      have h1 := hall label hl
      rw [Option.map_eq_none'] at h1
      rw [List.find?_eq_none] at h1
      simpa using h1 kw hkw
    · intro hall label hl
      rw [Option.map_eq_none', List.find?_eq_none]
      intro kw hkw
      simp [hall label hl kw hkw]
  have hex : ¬(powerKeywordsFound p req.power = []) ↔
      ∃ label ∈ req.power, ∃ kw ∈ POWER_KEYWORD_MAPPING label,
        wbSearch kw (productTextForPower p) = true := by
    rw [hfound]
    push_neg
    simp only [Bool.not_eq_false]
  have hlookup : (check_constraints p req).details.lookup "power" =
      some ((powerDim p req).detail) := by
    rw [check_constraints]
    simp only [List.lookup, show (("power" : String) == "frequency_band") = false by decide,
      show (("power" : String) == "environment") = false by decide,
      show (("power" : String) == "connectivity") = false by decide,
      show (("power" : String) == "power") = true by decide]
  refine ⟨?_, ?_, ?_, hlookup⟩
  · rw [powerDim, if_pos h]
    by_cases hf : powerKeywordsFound p req.power = []
    · rw [if_neg (by simpa using hf)]
      simp only [Option.some.injEq]
      constructor
      · intro hfalse
        exact absurd hfalse (by simp)
      · intro hx
        exact absurd hf (hex.mpr hx)
    · rw [if_pos (by simpa using hf)]
      simp only [true_iff]
      exact hex.mp hf
  · rw [powerDim, if_pos h]
    by_cases hf : powerKeywordsFound p req.power = []
    · rw [if_neg (by simpa using hf)]
      simp
    · rw [if_pos (by simpa using hf)]
      simp
  · rw [powerDim, if_pos h]
    by_cases hf : powerKeywordsFound p req.power = []
    · rw [if_neg (by simpa using hf)]
      simp [WEIGHTS_power_keyword]
    · rw [if_pos (by simpa using hf)]

/-- Claim C2 witness: two matching power labels on a product whose notes
mention both battery and solar supply; the dimension passes and contributes
exactly one weight unit. -/
theorem claim_C2_witness :
    let p : Product := ⟨"p", "P", "Runs on battery power", "Solar option available",
      "", [], "", [], ""⟩
    let req : Requirement := ⟨"", "", [], ["Battery Powered", "Solar Power"], "", [], "", ""⟩
    req.power ≠ [] ∧
      (((powerDim p req).detail = some true ↔
        ∃ label ∈ req.power, ∃ kw ∈ POWER_KEYWORD_MAPPING label,
          wbSearch kw (productTextForPower p) = true) ∧
       (powerDim p req).inc =
         (if (powerDim p req).detail = some true then WEIGHTS_power_keyword else 0) ∧
       (powerDim p req).inc ≤ WEIGHTS_power_keyword ∧
       (check_constraints p req).details.lookup "power" = some ((powerDim p req).detail)) :=
  ⟨by decide, claim_C2 _ _ (by decide)⟩

/-- Requested-token match as the specification claim words it: some synonym
keyword is an element of the parsed connectivity-token list or a substring of
the connectivity text (with no proviso about an empty text). -/
def connClaimTokenMatches (p : Product) (id : String) : Bool :=
  (keywords_to_check id).any (fun kw =>
    p.Connectivity_List.contains kw || substrIn kw p.Connectivity_Lower_Text)

/-- Claim C1 counterexample: for a product with empty connectivity text and
list, and a requirement whose only (flattened) token is the empty string, the
code fails the connectivity dimension although the token has a synonym
keyword (itself) that is a substring of the product connectivity text, so the
claimed equivalence is violated. -/
theorem claim_C1_counterexample :
    let p : Product := ⟨"p1", "P1", "", "", "", [], "", [], ""⟩
    let req : Requirement := ⟨"", "", [("other", [""])], [], "", [], "", ""⟩
    flattenConnectivity req ≠ [] ∧
    (check_constraints p req).details.lookup "connectivity" = some (some false) ∧
    (∃ id ∈ flattenConnectivity req, connClaimTokenMatches p id = true) := by
  refine ⟨by decide, by decide, "", by decide, by decide⟩

/-- Claim C1 (amended): with a non-empty flattened token set, the
connectivity dimension passes exactly when some requested token has a synonym
keyword that is an element of the parsed connectivity-token list or — when
the connectivity text is non-empty — a substring of that text, and the score
increment is the connectivity weight once per matched requested token. -/
theorem claim_C1 (p : Product) (req : Requirement)
    (h : flattenConnectivity req ≠ []) :
    ((connDim p req).detail = some true ↔
      ∃ id ∈ flattenConnectivity req, ∃ kw ∈ keywords_to_check id,
        (kw ∈ p.Connectivity_List ∨
          (p.Connectivity_Lower_Text ≠ "" ∧ substrIn kw p.Connectivity_Lower_Text = true))) ∧
    (connDim p req).inc =
      WEIGHTS_connectivity_option *
        ((flattenConnectivity req).filter (connTokenMatches p)).length ∧
    (check_constraints p req).details.lookup "connectivity" =
      some ((connDim p req).detail) := by
  have htok : ∀ id, connTokenMatches p id = true ↔
      ∃ kw ∈ keywords_to_check id,
        (kw ∈ p.Connectivity_List ∨
          (p.Connectivity_Lower_Text ≠ "" ∧ substrIn kw p.Connectivity_Lower_Text = true)) := by
    intro id
    rw [connTokenMatches, List.any_eq_true]
    constructor
    · rintro ⟨kw, hkw, hmatch⟩
      refine ⟨kw, hkw, ?_⟩
      simp only [Bool.or_eq_true, Bool.and_eq_true, decide_eq_true_eq] at hmatch
      rcases hmatch with hmem | ⟨hne, hsub⟩
      · left
        simpa using hmem
      · right
        exact ⟨by simpa using hne, hsub⟩
    · rintro ⟨kw, hkw, hmatch⟩
      refine ⟨kw, hkw, ?_⟩
      simp only [Bool.or_eq_true, Bool.and_eq_true, decide_eq_true_eq]
      rcases hmatch with hmem | ⟨hne, hsub⟩
      · left
        simpa using hmem
      · right
        exact ⟨by simpa using hne, hsub⟩
  have hlookup : (check_constraints p req).details.lookup "connectivity" =
      some ((connDim p req).detail) := by
    rw [check_constraints]
    simp only [List.lookup,
      show (("connectivity" : String) == "frequency_band") = false by decide,
      show (("connectivity" : String) == "environment") = false by decide,
      show (("connectivity" : String) == "connectivity") = true by decide]
  refine ⟨?_, ?_, hlookup⟩
  · rw [connDim, if_pos h]
    by_cases hf : (flattenConnectivity req).filter (connTokenMatches p) = []
    · rw [if_neg (by simpa using hf)]
      rw [List.filter_eq_nil_iff] at hf
      refine ⟨fun hfalse => absurd hfalse (by simp), fun hx => ?_⟩
      rcases hx with ⟨id, hid, hkw⟩
      exact absurd ((htok id).mpr hkw) (by simpa using hf id hid)
    · rw [if_pos (by simpa using hf)]
      refine ⟨fun _ => ?_, fun _ => rfl⟩
      rcases List.exists_cons_of_ne_nil hf with ⟨id, rest, hcons⟩
      have hid : id ∈ (flattenConnectivity req).filter (connTokenMatches p) := by
        rw [hcons]
        exact List.mem_cons_self id rest
      rw [List.mem_filter] at hid
      exact ⟨id, hid.1, (htok id).mp hid.2⟩
  · rw [connDim, if_pos h]
    by_cases hf : (flattenConnectivity req).filter (connTokenMatches p) = []
    · rw [if_neg (by simpa using hf), hf]
      rfl
    · rw [if_pos (by simpa using hf)]

/-- Claim C1 witness: the requirement asks for lorawan or ble and the product
carries LoRaWAN in its connectivity list, so the dimension passes with a
single per-token score increment. -/
theorem claim_C1_witness :
    let p : Product := ⟨"p", "P", "d", "n", "LoRaWAN, Ethernet", [],
      "lorawan, ethernet", ["lorawan", "ethernet"], ""⟩
    let req : Requirement := ⟨"", "", [("radio", ["lorawan", "ble"])], [], "", [], "", ""⟩
    flattenConnectivity req ≠ [] ∧
      (((connDim p req).detail = some true ↔
        ∃ id ∈ flattenConnectivity req, ∃ kw ∈ keywords_to_check id,
          (kw ∈ p.Connectivity_List ∨
            (p.Connectivity_Lower_Text ≠ "" ∧
              substrIn kw p.Connectivity_Lower_Text = true))) ∧
       (connDim p req).inc =
         WEIGHTS_connectivity_option *
           ((flattenConnectivity req).filter (connTokenMatches p)).length ∧
       (check_constraints p req).details.lookup "connectivity" =
         some ((connDim p req).detail)) :=
  ⟨by decide, claim_C1 _ _ (by decide)⟩

theorem insertByScore_mem (x : RecData) (l : List RecData) (a : RecData) :
    a ∈ insertByScore x l ↔ a = x ∨ a ∈ l := by
  induction l with
  | nil => simp [insertByScore]
  | cons y ys ih =>
    rw [insertByScore]
    split
    · simp only [List.mem_cons, ih]
      tauto
    · simp only [List.mem_cons]

theorem insertByScore_length (x : RecData) (l : List RecData) :
    (insertByScore x l).length = l.length + 1 := by
  induction l with
  | nil => rfl
  | cons y ys ih =>
    rw [insertByScore]
    split
    · simp [ih]
    · simp

theorem stableSortDesc_length (l : List RecData) :
    (stableSortDesc l).length = l.length := by
  induction l with
  | nil => rfl
  | cons x xs ih =>
    rw [stableSortDesc, insertByScore_length, ih]
    rfl

theorem insertByScore_sorted (x : RecData) (l : List RecData)
    (h : List.Sorted (fun a b : RecData => b.final_score ≤ a.final_score) l) :
    List.Sorted (fun a b : RecData => b.final_score ≤ a.final_score) (insertByScore x l) := by
  induction l with
  | nil => simp [insertByScore]
  | cons y ys ih =>
    rw [List.sorted_cons] at h
    rw [insertByScore]
    split
    case isTrue hxy =>
      rw [List.sorted_cons]
      refine ⟨?_, ih h.2⟩
      intro b hb
      rw [insertByScore_mem] at hb
      rcases hb with hb | hb
      · subst hb
        exact le_of_lt hxy
      · exact h.1 b hb
    case isFalse hxy =>
      rw [List.sorted_cons]
      refine ⟨?_, List.sorted_cons.mpr h⟩
      intro b hb
      rcases List.mem_cons.mp hb with hb | hb
      · subst hb
        exact le_of_not_lt hxy
      · exact le_trans (h.1 b hb) (le_of_not_lt hxy)

theorem stableSortDesc_sorted (l : List RecData) :
    List.Sorted (fun a b : RecData => b.final_score ≤ a.final_score) (stableSortDesc l) := by
  induction l with
  | nil => simp [stableSortDesc]
  | cons x xs ih => exact insertByScore_sorted x _ ih

theorem insertByScore_filter (x : RecData) (l : List RecData) (s : Rat) :
    (insertByScore x l).filter (fun a => decide (a.final_score = s)) =
      (if x.final_score = s then [x] else []) ++
        l.filter (fun a => decide (a.final_score = s)) := by
  induction l with
  | nil =>
    by_cases hx : x.final_score = s
    · rw [if_pos hx]
      simp [insertByScore, hx]
    · rw [if_neg hx]
      simp [insertByScore, hx]
  | cons y ys ih =>
    rw [insertByScore]
    split
    case isTrue hxy =>
      by_cases hy : y.final_score = s
      · have hx : ¬ x.final_score = s := by
          intro hx
          rw [hx, ← hy] at hxy
          exact lt_irrefl _ hxy
        rw [List.filter_cons_of_pos (by simpa using hy), ih]
        rw [if_neg hx]
        rw [List.filter_cons_of_pos (by simpa using hy)]
        simp
      · rw [List.filter_cons_of_neg (by simpa using hy), ih]
        rw [List.filter_cons_of_neg (by simpa using hy)]
    case isFalse hxy =>
      by_cases hx : x.final_score = s
      · rw [List.filter_cons_of_pos (by simpa using hx), if_pos hx]
        rfl
      · rw [List.filter_cons_of_neg (by simpa using hx), if_neg hx]
        rfl

theorem stableSortDesc_filter (l : List RecData) (s : Rat) :
    (stableSortDesc l).filter (fun a => decide (a.final_score = s)) =
      l.filter (fun a => decide (a.final_score = s)) := by
  induction l with
  | nil => rfl
  | cons x xs ih =>
    rw [stableSortDesc, insertByScore_filter, ih]
    by_cases hx : x.final_score = s
    · rw [if_pos hx, List.filter_cons_of_pos (by simpa using hx)]
      rfl
    · rw [if_neg hx, List.filter_cons_of_neg (by simpa using hx)]
      rfl

theorem assignSims_length (cs : List (ProductRow × CheckResult)) (sims : List Rat) :
    (assignSims cs sims).length = cs.length := by
  induction cs generalizing sims with
  | nil => rfl
  | cons c rest ih =>
    simp only [assignSims]
    split
    · cases sims with
      | nil => simp [ih]
      | cons s more => simp [ih]
    · simp [ih]

theorem assignSims_map_fst (cs : List (ProductRow × CheckResult)) (sims : List Rat) :
    (assignSims cs sims).map Prod.fst = cs := by
  induction cs generalizing sims with
  | nil => rfl
  | cons c rest ih =>
    simp only [assignSims]
    split
    · cases sims with
      | nil => simp [ih]
      | cons s more => simp [ih]
    · simp [ih]

theorem recommendation_data_length (sp : SoftProvider) (rows : List ProductRow)
    (req : Requirement) :
    (recommendation_data sp rows req).length = (survivors rows req).length := by
  rw [recommendation_data]
  split
  · simp
  · split
    · simp
    · simp
    · simp [assignSims_length]

theorem recommendation_data_nil (sp : SoftProvider) (rows : List ProductRow)
    (req : Requirement) (h : survivors rows req = []) :
    recommendation_data sp rows req = [] := by
  rw [recommendation_data]
  split
  · simp [h]
  · split
    · simp [h]
    · simp [h]
    · simp [h, assignSims]

theorem recommend_eq_sorted (sp : SoftProvider) (rows : List ProductRow)
    (req : Requirement) (n : Nat) :
    recommend sp rows req n =
      ((stableSortDesc (recommendation_data sp rows req)).take n).map formatOutput := by
  rw [recommend]
  split
  case isTrue hrows =>
    subst hrows
    rw [recommendation_data_nil sp [] req rfl]
    simp [stableSortDesc]
  case isFalse hrows =>
    split
    case isTrue hsurv =>
      rw [recommendation_data_nil sp rows req hsurv]
      simp [stableSortDesc]
    case isFalse hsurv => rfl

theorem recommendation_data_ids (sp : SoftProvider) (rows : List ProductRow)
    (req : Requirement) :
    (recommendation_data sp rows req).map RecData.product_id =
      (survivors rows req).map (fun pr => pr.1.product.Product_ID) := by
  rw [recommendation_data]
  split
  · rw [List.map_map]
    rfl
  · split
    · rw [List.map_map]
      rfl
    · rw [List.map_map]
      rfl
    · rw [List.map_map]
      rw [show (RecData.product_id ∘ simRecord) =
          ((fun pr : ProductRow × CheckResult => pr.1.product.Product_ID) ∘ Prod.fst)
          from rfl]
      rw [← List.map_map, assignSims_map_fst]

theorem recommend_length (sp : SoftProvider) (rows : List ProductRow)
    (req : Requirement) (n : Nat) :
    (recommend sp rows req n).length = min n (survivors rows req).length := by
  rw [recommend_eq_sorted]
  rw [List.length_map, List.length_take, stableSortDesc_length,
    recommendation_data_length]

theorem recommend_sorted (sp : SoftProvider) (rows : List ProductRow)
    (req : Requirement) (n : Nat) :
    List.Sorted (fun a b : Rat => b ≤ a)
      ((recommend sp rows req n).map OutputRec.Final_Score) := by
  rw [recommend_eq_sorted, List.map_map]
  have h1 : OutputRec.Final_Score ∘ formatOutput = RecData.final_score := rfl
  rw [h1]
  have h2 := stableSortDesc_sorted (recommendation_data sp rows req)
  have h3 : List.Sorted (fun a b : RecData => b.final_score ≤ a.final_score)
      ((stableSortDesc (recommendation_data sp rows req)).take n) :=
    List.Pairwise.sublist (List.take_sublist n _) h2
  exact List.pairwise_map.mpr h3

/-- Claim C4: recommend is deterministic — equal inputs give equal output —
and the stable descending sort keeps candidates of equal final score in the
order of the pre-sort recommendation list, which itself lists survivors in
original catalog order. -/
theorem claim_C4 (sp : SoftProvider) (rows : List ProductRow) (req : Requirement)
    (n : Nat) :
    recommend sp rows req n = recommend sp rows req n ∧
    (∀ s : Rat,
      (stableSortDesc (recommendation_data sp rows req)).filter
          (fun a => decide (a.final_score = s)) =
        (recommendation_data sp rows req).filter
          (fun a => decide (a.final_score = s))) ∧
    (recommendation_data sp rows req).map RecData.product_id =
      (survivors rows req).map (fun pr => pr.1.product.Product_ID) :=
  ⟨rfl, fun s => stableSortDesc_filter _ s, recommendation_data_ids sp rows req⟩

/-- Claim C7 counterexample: `recommend` called without an explicit `top_n`
truncates to 5, not 3 — a four-candidate catalog yields four records under
the default, while a default of 3 would allow at most three. -/
theorem claim_C7_counterexample :
    (recommend ⟨false, fun _ => none, fun _ _ => []⟩
      [⟨⟨"a", "A", "", "", "", [], "", [], ""⟩, []⟩,
       ⟨⟨"b", "B", "", "", "", [], "", [], ""⟩, []⟩,
       ⟨⟨"c", "C", "", "", "", [], "", [], ""⟩, []⟩,
       ⟨⟨"d", "D", "", "", "", [], "", [], ""⟩, []⟩]
      ⟨"", "", [], [], "", [], "", ""⟩).length = 4 := by
  decide

/-- Claim C7 (amended): recommend sorts the surviving candidates by final
score descending with a stable sort and truncates to the requested top-N,
whose default value is 5; top_n = 0 returns an empty list and any top_n at
least the candidate count returns all candidates. -/
theorem claim_C7 (sp : SoftProvider) (rows : List ProductRow) (req : Requirement) :
    recommend sp rows req = recommend sp rows req 5 ∧
    (∀ n, recommend sp rows req n =
      ((stableSortDesc (recommendation_data sp rows req)).take n).map formatOutput) ∧
    (∀ n, List.Sorted (fun a b : Rat => b ≤ a)
      ((recommend sp rows req n).map OutputRec.Final_Score)) ∧
    (∀ n, (recommend sp rows req n).length = min n (survivors rows req).length) ∧
    recommend sp rows req 0 = [] := by
  refine ⟨rfl, fun n => recommend_eq_sorted sp rows req n,
    fun n => recommend_sorted sp rows req n,
    fun n => recommend_length sp rows req n, ?_⟩
  rw [recommend_eq_sorted]
  rfl

/-- Claim C3: when the model is unavailable or the requirement query text is
empty, recommend still works — every surviving candidate gets similarity
exactly 0, final score exactly its rule score, the degraded-mode note
appended to its explanation, and the output is still sorted and truncated. -/
theorem claim_C3 (sp : SoftProvider) (rows : List ProductRow) (req : Requirement)
    (n : Nat)
    (hdeg : sp.modelAvailable = false ∨ build_requirement_query req = "")
    (hsurv : survivors rows req ≠ []) :
    recommendation_data sp rows req =
      (survivors rows req).map
        (degradedRecord "Text Similarity: 0.00 (Query empty or model issue)") ∧
    (∀ r ∈ recommendation_data sp rows req,
      r.similarity_score = 0 ∧ r.final_score = (r.hc_score : Rat) ∧
      r.explanation =
        r.hc_explanation ++ ["Text Similarity: 0.00 (Query empty or model issue)"]) ∧
    recommend sp rows req n =
      ((stableSortDesc (recommendation_data sp rows req)).take n).map formatOutput ∧
    List.Sorted (fun a b : Rat => b ≤ a)
      ((recommend sp rows req n).map OutputRec.Final_Score) ∧
    (recommend sp rows req n).length = min n ((survivors rows req).length) := by
  have hbranch : recommendation_data sp rows req =
      (survivors rows req).map
        (degradedRecord "Text Similarity: 0.00 (Query empty or model issue)") := by
    rw [recommendation_data]
    rw [if_pos ?hc]
    case hc =>
      rcases hdeg with h | h
      · right
        exact h
      · left
        rw [h]
        rfl
  refine ⟨hbranch, ?_, recommend_eq_sorted sp rows req n,
    recommend_sorted sp rows req n, recommend_length sp rows req n⟩
  intro r hr
  rw [hbranch] at hr
  rcases List.mem_map.mp hr with ⟨pr, hpr, hrec⟩
  subst hrec
  exact ⟨rfl, rfl, rfl⟩

/-- Claim C3 witness: a one-product catalog, unavailable model, unconstrained
requirement. -/
theorem claim_C3_witness :
    let sp : SoftProvider := ⟨false, fun _ => none, fun _ _ => []⟩
    let rows : List ProductRow := [⟨⟨"a", "A", "", "", "", [], "", [], ""⟩, []⟩]
    let req : Requirement := ⟨"", "", [], [], "", [], "", ""⟩
    (sp.modelAvailable = false ∨ build_requirement_query req = "") ∧
      survivors rows req ≠ [] ∧
      (recommendation_data sp rows req =
        (survivors rows req).map
          (degradedRecord "Text Similarity: 0.00 (Query empty or model issue)") ∧
       (∀ r ∈ recommendation_data sp rows req,
         r.similarity_score = 0 ∧ r.final_score = (r.hc_score : Rat) ∧
         r.explanation =
           r.hc_explanation ++ ["Text Similarity: 0.00 (Query empty or model issue)"]) ∧
       recommend sp rows req 3 =
         ((stableSortDesc (recommendation_data sp rows req)).take 3).map formatOutput ∧
       List.Sorted (fun a b : Rat => b ≤ a)
         ((recommend sp rows req 3).map OutputRec.Final_Score) ∧
       (recommend sp rows req 3).length = min 3 ((survivors rows req).length)) :=
  ⟨Or.inl rfl, by decide, claim_C3 _ _ _ 3 (Or.inl rfl) (by decide)⟩

/-- Claim C8: an empty catalog, or one where no product passes the filter,
yields an empty recommendation list, and in that situation the result does
not depend on the soft-matching provider at all (no embedding work can
influence it). -/
theorem claim_C8 (sp sp2 : SoftProvider) (rows : List ProductRow)
    (req : Requirement) (n : Nat)
    (h : rows = [] ∨ survivors rows req = []) :
    recommend sp rows req n = [] ∧
    recommend sp rows req n = recommend sp2 rows req n := by
  have key : ∀ sp3 : SoftProvider, recommend sp3 rows req n = [] := by
    intro sp3
    rw [recommend]
    rcases h with h | h
    · rw [if_pos h]
    · by_cases hrows : rows = []
      · rw [if_pos hrows]
      · rw [if_neg hrows, if_pos h]
  exact ⟨key sp, (key sp).trans (key sp2).symm⟩

/-- Claim C8 witness: one product that fails the frequency-band filter, two
different providers. -/
theorem claim_C8_witness :
    let sp : SoftProvider := ⟨false, fun _ => none, fun _ _ => []⟩
    let sp2 : SoftProvider := ⟨true, fun _ => some [], fun _ _ => []⟩
    let rows : List ProductRow := [⟨⟨"a", "A", "", "", "", [], "", [], ""⟩, []⟩]
    let req : Requirement := ⟨"US915", "", [], [], "", [], "", ""⟩
    (rows = [] ∨ survivors rows req = []) ∧
      (recommend sp rows req 5 = [] ∧
       recommend sp rows req 5 = recommend sp2 rows req 5) :=
  ⟨Or.inr (by decide), claim_C8 _ _ _ _ 5 (Or.inr (by decide))⟩

/-- A string is normalised in the sense of the corpus builders: lower-casing
and whitespace collapsing are both fixed points on it. -/
def normalizedStr (s : String) : Prop := pyLower s = s ∧ pyNormalize s = s

theorem normalized_lower_normalize (t : String) :
    normalizedStr (pyLower (pyNormalize t)) := by
  constructor
  · exact pyLower_pyLower _
  · rw [pyNormalize_pyLower, pyNormalize_idem]

/-- Claim C9 counterexample: on a features table whose `Feature_ID` column
holds an integer cell, `build_product_corpus` hands back a features table
with that column coerced to strings — the table is modified in place by
line 45 of `soft_matcher.py`. -/
theorem claim_C9_counterexample :
    (build_product_corpus ⟨"p1", "P1", "d", "n", "c", [], "", [], ""⟩
      [⟨Cell.int 7, "f", "desc7"⟩] [⟨Cell.str "p1", Cell.int 7⟩]).2 ≠
      [⟨Cell.int 7, "f", "desc7"⟩] := by
  decide

/-- Claim C9 (amended): both corpus builders are deterministic and produce
normalised (whitespace-collapsed, lower-cased) strings, and
`build_product_corpus` leaves the features table unmodified whenever its
`Feature_ID` column already holds strings, as the loader guarantees. -/
theorem claim_C9 (row : Product) (ft : List FeatureRow) (mp : List MapRow)
    (req : Requirement) (h : ∀ f ∈ ft, f.Feature_ID.isStr = true) :
    (build_product_corpus row ft mp).2 = ft ∧
    build_product_corpus row ft mp = build_product_corpus row ft mp ∧
    build_requirement_query req = build_requirement_query req ∧
    normalizedStr (build_product_corpus row ft mp).1 ∧
    normalizedStr (build_requirement_query req) := by
  have hmap : astypeStrColumn ft = ft := by
    have hcongr : ∀ f ∈ ft,
        ({ f with Feature_ID := Cell.str f.Feature_ID.toStr } : FeatureRow) = f := by
      intro f hf
      have hstr := h f hf
      obtain ⟨fid, fn, fd⟩ := f
      cases fid with
      | str v => rfl
      | int v => simp [Cell.isStr] at hstr
    calc ft.map (fun f => { f with Feature_ID := Cell.str f.Feature_ID.toStr })
        = ft.map id := List.map_congr_left hcongr
      _ = ft := List.map_id ft
  refine ⟨?_, rfl, rfl, ?_, ?_⟩
  · simp only [build_product_corpus]
    split_ifs with h1 h2 h3
    · exact hmap
    · rfl
    · rfl
    · rfl
  · exact normalized_lower_normalize _
  · exact normalized_lower_normalize _

/-- Claim C9 witness: a string-typed feature table linked to the product. -/
theorem claim_C9_witness :
    let row : Product := ⟨"p1", "P1", "Desc", "Note", "LoRa", [], "lora", ["lora"], ""⟩
    let ft : List FeatureRow := [⟨Cell.str "f1", "F", "A feature description"⟩]
    let mp : List MapRow := [⟨Cell.str "p1", Cell.str "f1"⟩]
    let req : Requirement := ⟨"", "", [], [], "Tracking", ["asset"], "", "rural site"⟩
    (∀ f ∈ ft, f.Feature_ID.isStr = true) ∧
      ((build_product_corpus row ft mp).2 = ft ∧
       build_product_corpus row ft mp = build_product_corpus row ft mp ∧
       build_requirement_query req = build_requirement_query req ∧
       normalizedStr (build_product_corpus row ft mp).1 ∧
       normalizedStr (build_requirement_query req)) :=
  ⟨by decide, claim_C9 _ _ _ _ (by decide)⟩

end Rak
